import Mathlib

/-!
Verification development for the `gql` reflective GraphQL schema builder.

The Go sources are shallowly embedded:
* Go strings are `List Char` (`Str`); Go's `strings.Split(s, ",")` is `splitComma`.
* `reflect.Type` values are `GoTy`; the package's named struct declarations live
  in an explicit environment `Env` mapping a struct's name to its field list,
  method list and optional `GraphQLTypeName` override.  Numeric widths
  (`int8..int64`, `uint*`, `float32`) are collapsed into single constructors,
  since the source maps every width to the same scalar node.
* Fallible Go functions returning `(T, error)` become `Except` values; the
  distinct `fmt.Errorf` sites are named by error enums (`TagErr`, `RIErr`,
  `BErr`).
* `graphql.NewObject` allocates a fresh node; node identity (Go pointer
  identity) is modelled by a counter-generated `id` carried by object nodes.
-/

/-- Go strings, modelled as lists of characters. -/
abbrev Str := List Char

/-- Association-list lookup, modelling Go map reads (`m[k]`, with `ok`). -/
def assoc {α β : Type} [DecidableEq α] (k : α) : List (α × β) → Option β
  | [] => none
  | (a, b) :: rest => if a = k then some b else assoc k rest

/-- Association-list write, modelling Go map assignment (`m[k] = v`). -/
def upsert {α β : Type} [DecidableEq α] (k : α) (v : β) : List (α × β) → List (α × β)
  | [] => [(k, v)]
  | (a, b) :: rest => if a = k then (k, v) :: rest else (a, b) :: upsert k v rest

/-- Model of Go's `strings.Split(s, ",")`: splitting the empty string yields
`[""]`, and every comma starts a new (possibly empty) part. -/
def splitComma : Str → List Str
  | [] => [[]]
  | c :: rest =>
    if c = ',' then [] :: splitComma rest
    else
      match splitComma rest with
      | s :: ss => (c :: s) :: ss
      | [] => [[c]]

/-- Error sites of `ParseGqlTag` (tag.go): the `len(parts) > 2` rejection and
the unrecognized-flag rejection. -/
inductive TagErr where
  | tooManySections
  | badFlag
deriving DecidableEq

/-- GqlTag mirrors the `GqlTag` struct of tag.go. -/
structure GqlTag where
  FieldName : Str
  NonNull : Bool
deriving DecidableEq

/-- ParseGqlTag mirrors tag.go: split on commas, reject more than two parts,
take the first part as the field name, and accept a second part only when it
is exactly the literal `nonNull`. -/
def ParseGqlTag (tag : Str) : Except TagErr GqlTag :=
  match splitComma tag with
  | [name] => .ok ⟨name, false⟩
  | [name, flag] =>
    if flag = "nonNull".toList then .ok ⟨name, true⟩ else .error .badFlag
  | _ => .error .tooManySections

/-- Kinds of `reflect.Type`, as used by the source's `Kind()` switches. -/
inductive GoKind where
  | intK
  | stringK
  | boolK
  | floatK
  | sliceK
  | mapK
  | ptrK
  | structK
  | interfaceK
deriving DecidableEq

/-- Go types reachable by the builder's reflection walk.  `ctx`, `info` and
`err` are the well-known marker types `context.Context`, `graphql.ResolveInfo`
and `error`; `time` is `time.Time`; `iface` is a bare `interface` type;
`ref n` is the named struct type declared under `n` in the environment. -/
inductive GoTy where
  | int
  | str
  | bool
  | float
  | time
  | ctx
  | info
  | err
  | iface
  | slice (elem : GoTy)
  | map (key val : GoTy)
  | ptr (elem : GoTy)
  | ref (n : Str)
deriving DecidableEq

/-- Kind mirrors `reflect.Type.Kind()`: `context.Context` and `error` are
interfaces, `graphql.ResolveInfo` and `time.Time` are structs. -/
def GoTy.kind : GoTy → GoKind
  | .int => .intK
  | .str => .stringK
  | .bool => .boolK
  | .float => .floatK
  | .time => .structK
  | .ctx => .interfaceK
  | .info => .structK
  | .err => .interfaceK
  | .iface => .interfaceK
  | .slice _ => .sliceK
  | .map _ _ => .mapK
  | .ptr _ => .ptrK
  | .ref _ => .structK

/-- Model of `reflect.Type.String()`.  A named struct prints as its
package-qualified name; declaration names are unique, so the constant `gql.`
prefix is kept literally.  Array lengths are not modelled (no claim uses
arrays). -/
def tyGoString : GoTy → Str
  | .int => "int".toList
  | .str => "string".toList
  | .bool => "bool".toList
  | .float => "float64".toList
  | .time => "time.Time".toList
  | .ctx => "context.Context".toList
  | .info => "graphql.ResolveInfo".toList
  | .err => "error".toList
  | .iface => "interface \x7b\x7d".toList
  | .slice e => "[]".toList ++ tyGoString e
  | .map k v => "map[".toList ++ tyGoString k ++ "]".toList ++ tyGoString v
  | .ptr e => "*".toList ++ tyGoString e
  | .ref n => "gql.".toList ++ n

/-- One struct field: its Go name, the value of its `gql` struct tag (Go's
`Tag.Get` returns the empty string when the key is absent), and its type. -/
structure GoField where
  fname : Str
  tag : Str
  ty : GoTy
deriving DecidableEq

/-- Signature of a Go func value (`reflect.Value.Type()`): for a method
obtained via `Method(i).Func` the receiver is `params[0]`. -/
structure FnSig where
  params : List GoTy
  results : List GoTy
deriving DecidableEq

/-- One method of a named struct type. -/
structure GoMethod where
  mname : Str
  exported : Bool
  sig : FnSig
deriving DecidableEq

/-- Declaration of one named struct type.  `sfields` is the sequence that
`reflect.VisibleFields` yields (field promotion is not modelled, so it also
serves the `NumField`-based loops).  `gqlTypeName` models the optional
zero-argument `GraphQLTypeName` method's return value. -/
structure GoStruct where
  sfields : List GoField
  methods : List GoMethod
  gqlTypeName : Option Str
deriving DecidableEq

/-- The package's named struct declarations: the part of the reflection
universe the builder can reach. -/
abbrev Env := List (Str × GoStruct)

/-- GetGqlTag mirrors tag.go's `GetGqlTag`/`ParseGqlTagFromField`: parse the
field's `gql` tag and surface `(fieldName, nonNull)`. -/
def GetGqlTag (f : GoField) : Except TagErr (Str × Bool) :=
  match ParseGqlTag f.tag with
  | .error e => .error e
  | .ok t => .ok (t.FieldName, t.NonNull)

/-- Fields of a struct type, for `reflect.VisibleFields` on a dereferenced
type: only environment-declared structs have fields in the model. -/
def structFieldsOf (env : Env) : GoTy → List GoField
  | .ref n =>
    match assoc n env with
    | some d => d.sfields
    | none => []
  | _ => []

/-- hasStructValidGqlTag mirrors resolveinfo.go: some visible field parses and
exposes a non-empty name (note the source accepts `-` here). -/
def hasStructValidGqlTag (env : Env) (t : GoTy) : Bool :=
  (structFieldsOf env t).any fun f =>
    match ParseGqlTag f.tag with
    | .ok tg => decide (tg.FieldName ≠ [])
    | .error _ => false

/-- ArgInfo mirrors the `ArgInfo` struct of arginfo.go. -/
structure ArgInfo where
  «Type» : GoTy
  RealType : GoTy
  Index : Nat
  IsPtr : Bool
  IsSlice : Bool
deriving DecidableEq

/-- NewArgInfo mirrors arginfo.go: one level of pointer or slice unwrapping
determines `RealType`. -/
def NewArgInfo (t : GoTy) (i : Nat) : ArgInfo :=
  match t with
  | .ptr e => ⟨t, e, i, true, false⟩
  | .slice e => ⟨t, e, i, false, true⟩
  | _ => ⟨t, t, i, false, false⟩

/-- Error sites of `NewResolveInfo`/`Validate` (resolveinfo.go), one
constructor per `fmt.Errorf` site. -/
inductive RIErr where
  | noReceiver
  | receiverNotStruct
  | tooManyArguments
  | tooManyReturns
  | ambiguousInput
  | ambiguousOutput
  | inputNotStruct
  | inputNoGqlTag
  | outputNoGqlTag
  | missingOutput
deriving DecidableEq

/-- ResolveInfo mirrors resolveinfo.go (the reflected `Func` value itself is
not carried; invocation-time behaviour is modelled separately). -/
structure ResolveInfo where
  IsBound : Bool
  Source : Option ArgInfo
  Context : Option ArgInfo
  Info : Option ArgInfo
  Input : Option ArgInfo
  Output : Option ArgInfo
  Error : Option ArgInfo
deriving DecidableEq

/-- Output-slot checks of `(*ResolveInfo).Validate` (resolveinfo.go lines
55–63): a missing output is rejected for unbound callables, and a struct-kind
output must carry at least one annotated field. -/
def ResolveInfo.validateOutput (r : ResolveInfo) (env : Env) : Option RIErr :=
  match r.Output with
  | none => if ¬ r.IsBound then some .missingOutput else none
  | some outp =>
    if outp.RealType.kind = GoKind.structK ∧ ¬ hasStructValidGqlTag env outp.RealType then
      some .outputNoGqlTag
    else none

/-- Validate mirrors `(*ResolveInfo).Validate` of resolveinfo.go, returning
`none` for a nil error: input-slot checks with early returns, then the
output-slot checks. -/
def ResolveInfo.Validate (r : ResolveInfo) (env : Env) : Option RIErr :=
  match r.Input with
  | some inp =>
    if inp.RealType.kind ≠ GoKind.structK ∨ inp.IsSlice then some .inputNotStruct
    else if ¬ hasStructValidGqlTag env inp.RealType then some .inputNoGqlTag
    else r.validateOutput env
  | none => r.validateOutput env

/-- Parameter classification loop of `NewResolveInfo`: match each remaining
parameter's dereferenced type against the context and info marker types by
identity; at most one non-marker parameter becomes the input slot. -/
def classifyIns : List GoTy → Nat → Option ArgInfo → Option ArgInfo → Option ArgInfo →
    Except RIErr (Option ArgInfo × Option ArgInfo × Option ArgInfo)
  | [], _, c, inf, inp => .ok (c, inf, inp)
  | t :: rest, i, c, inf, inp =>
    let ai := NewArgInfo t i
    if ai.RealType = GoTy.ctx then classifyIns rest (i + 1) (some ai) inf inp
    else if ai.RealType = GoTy.info then classifyIns rest (i + 1) c (some ai) inp
    else
      match inp with
      | none => classifyIns rest (i + 1) c inf (some ai)
      | some _ => .error .ambiguousInput

/-- Return-value classification loop of `NewResolveInfo`: the error-carrier
type by identity, at most one other return value as the output slot. -/
def classifyOuts : List GoTy → Nat → Option ArgInfo → Option ArgInfo →
    Except RIErr (Option ArgInfo × Option ArgInfo)
  | [], _, outp, er => .ok (outp, er)
  | t :: rest, i, outp, er =>
    let ai := NewArgInfo t i
    if ai.RealType = GoTy.err then classifyOuts rest (i + 1) outp (some ai)
    else
      match outp with
      | none => classifyOuts rest (i + 1) (some ai) er
      | some _ => .error .ambiguousOutput

/-- Body of `NewResolveInfo` after the bound-receiver preamble: count limits,
both classification loops, then `Validate`. -/
def classifySignature (env : Env) (sig : FnSig) (isBound : Bool) (src : Option ArgInfo)
    (maxArgs baseIdx : Nat) : Except RIErr ResolveInfo :=
  if sig.params.length > maxArgs then .error .tooManyArguments
  else if sig.results.length > 2 then .error .tooManyReturns
  else
    match classifyIns (sig.params.drop baseIdx) baseIdx none none none with
    | .error e => .error e
    | .ok (c, inf, inp) =>
      match classifyOuts sig.results 0 none none with
      | .error e => .error e
      | .ok (outp, er) =>
        let r : ResolveInfo := ⟨isBound, src, c, inf, inp, outp, er⟩
        match r.Validate env with
        | some e => .error e
        | none => .ok r

/-- NewResolveInfo mirrors resolveinfo.go: a bound callable's first parameter
is the receiver and must dereference to a struct kind; bound callables allow
4 parameters, unbound 3; at most 2 return values. -/
def NewResolveInfo (env : Env) (sig : FnSig) (isBound : Bool) : Except RIErr ResolveInfo :=
  if isBound then
    match sig.params with
    | [] => .error .noReceiver
    | recvTy :: _ =>
      let src := NewArgInfo recvTy 0
      if src.RealType.kind ≠ GoKind.structK then .error .receiverNotStruct
      else classifySignature env sig true (some src) 4 1
  else classifySignature env sig false none 3 0

/-- Error sites of the schema builder (builder.go), one constructor per
distinct failure; `unknownType` marks a struct type missing from the modelled
environment and `outOfFuel` marks exhaustion of the recursion fuel used for
`TypeAsGraphqlArgumentConfig`, which has no cycle protection in the source. -/
inductive BErr where
  | malformedTag (e : TagErr)
  | unsupportedMapType
  | unsupportedType
  | argumentsNotStruct
  | unknownType
  | outOfFuel
deriving DecidableEq

/-- Schema output nodes (`graphql.Output`).  `gScalar nm` covers the built-in
scalars (by the names `Int`, `String`, `Boolean`, `Float`) and registered
custom scalars; `gObject`/`gThunkObject` carry the fresh allocation id that
models Go pointer identity, and a thunk object is the cyclic placeholder whose
field set is read from the builder's fields cache.  Field sets of completed
objects are tracked in the fields cache rather than inside the node. -/
inductive GOutput where
  | gScalar (nm : Str)
  | gList (t : GOutput)
  | gNonNull (t : GOutput)
  | gObject (id : Nat) (nm : Str)
  | gThunkObject (id : Nat) (nm : Str)
deriving DecidableEq

/-- A `graphql.Fields` map: exposed field name to the field's type node. -/
abbrev FieldsMap := List (Str × GOutput)

/-- Schema input nodes (`graphql.Input`) for argument configs.  Input object
field maps are observable through `argFields`; the node itself carries the
chosen type name, which is what the deduplication logic manipulates. -/
inductive GInput where
  | iScalar (nm : Str)
  | iList (t : GInput)
  | iNonNull (t : GInput)
  | iInputObject (nm : Str)
deriving DecidableEq

/-- Mutable maps of a `SchemaBuilder` during one build pass, plus the fresh-id
counter for allocated object nodes. -/
structure BuildState where
  typeRegistry : List (Str × GOutput)
  fieldsCache : List (Str × FieldsMap)
  typeHashRegistry : List (Str × Str)
  registeredInputTypes : List Str
  nextId : Nat
deriving DecidableEq

/-- Immutable configuration of a `SchemaBuilder`: the reflection universe of
named struct declarations, the registered custom scalar types, and the
deduplication flag. -/
structure SchemaBuilder where
  env : Env
  customTypes : List (GoTy × Str)
  allowSharedTypes : Bool
deriving DecidableEq

/-- RegisterCustomType mirrors builder.go's map assignment. -/
def RegisterCustomType (b : SchemaBuilder) (goType : GoTy) (scalarName : Str) : SchemaBuilder :=
  { b with customTypes := upsert goType scalarName b.customTypes }

/-- createDateTimeScalar is modelled by the scalar's name; its serializer
functions are orthogonal to every claim. -/
def createDateTimeScalar : Str := "DateTime".toList

/-- NewSchemaBuilder mirrors builder.go: empty registries, deduplication
enabled by default, and `time.Time` registered twice as the DateTime scalar
(in the source both `reflect.TypeOf(time.Time{})` and
`reflect.TypeOf((*time.Time)(nil)).Elem()` denote `time.Time`). -/
def NewSchemaBuilder (env : Env) : SchemaBuilder :=
  RegisterCustomType
    (RegisterCustomType ⟨env, [], true⟩ GoTy.time createDateTimeScalar)
    GoTy.time createDateTimeScalar

/-- Fresh per-build mutable state, mirroring the empty maps made in
`NewSchemaBuilder`. -/
def initialBuildState : BuildState := ⟨[], [], [], [], 0⟩

/-- AllowSharedTypes mirrors builder.go: set the deduplication flag. -/
def AllowSharedTypes (b : SchemaBuilder) (allow : Bool) : SchemaBuilder :=
  { b with allowSharedTypes := allow }

/-- structHash mirrors builder.go: the hash input is seeded with
`definition.String()` and then extended with `name:type;` for every visible
field carrying a non-empty, non-`-` tag.  The sha256 digest is modelled by the
hash input itself (sha256 treated as injective, i.e. collision-free), and the
pure memoization cache `structHashCache` is elided. -/
def structHash (n : Str) (d : GoStruct) : Str :=
  "struct:".toList ++ tyGoString (.ref n) ++ ":".toList ++
    d.sfields.foldl (fun acc f =>
      match GetGqlTag f with
      | .error _ => acc
      | .ok (fieldName, _) =>
        if fieldName = [] ∨ fieldName = "-".toList then acc
        else acc ++ fieldName ++ ":".toList ++ tyGoString f.ty ++ ";".toList) []

/-- Structural size of a type term, for termination measures. -/
def tySize : GoTy → Nat
  | .slice e => tySize e + 1
  | .map k v => tySize k + tySize v + 1
  | .ptr e => tySize e + 1
  | .ref _ => 2
  | _ => 1

/-- Measure for field-list loops. -/
def fieldsSize (fs : List GoField) : Nat :=
  (fs.map fun f => tySize f.ty + 1).sum

/-- Measure for method-list loops. -/
def methodsSize (ms : List GoMethod) : Nat :=
  (ms.map fun m => (m.sig.results.map tySize).sum + 1).sum

/-- Number of declared struct types not currently marked as processing: the
decreasing part of the cycle-protection measure. -/
def remaining (b : SchemaBuilder) (pr : List Str) : Nat :=
  ((b.env.map Prod.fst).toFinset \ pr.toFinset).card

mutual

/-- TypeAsGraphqlArgumentConfig mirrors builder.go's input-type mapper.  The
source has no cycle protection here, so the model is fuel-indexed (`fuel` is
consumed on every recursive step and exhaustion reports `outOfFuel`): a
self-referential input type genuinely recurses forever in the source.  Map
kinds fall to the default branch (`Unsupported type`), as in the source. -/
def TypeAsGraphqlArgumentConfig (b : SchemaBuilder) :
    Nat → BuildState → GoTy → Except BErr (GInput × BuildState)
  | 0, _, _ => .error .outOfFuel
  | fuel + 1, st, t =>
    match assoc t b.customTypes with
    | some nm => .ok (.iScalar nm, st)
    | none =>
      match t with
      | .int => .ok (.iScalar "Int".toList, st)
      | .str => .ok (.iScalar "String".toList, st)
      | .bool => .ok (.iScalar "Boolean".toList, st)
      | .float => .ok (.iScalar "Float".toList, st)
      | .slice e =>
        match TypeAsGraphqlArgumentConfig b fuel st e with
        | .error er => .error er
        | .ok (ec, st') => .ok (.iList ec, st')
      | .ptr e => TypeAsGraphqlArgumentConfig b fuel st e
      | .ref n =>
        match assoc n b.env with
        | none => .error .unknownType
        | some d =>
          let typeName0 : Str :=
            match d.gqlTypeName with
            | some nm => if nm = [] then n else nm
            | none => n
          match
            (if b.allowSharedTypes then
              match assoc (structHash n d) st.typeHashRegistry with
              | some existing => (existing, true, st)
              | none =>
                (typeName0, false,
                  { st with typeHashRegistry :=
                      upsert (structHash n d) typeName0 st.typeHashRegistry })
            else (typeName0, false, st)) with
          | (typeName, useDedup, st1) =>
            if typeName ∈ st1.registeredInputTypes ∧ useDedup = true then
              .ok (.iInputObject typeName, st1)
            else
              match argFields b fuel st1 d.sfields [] with
              | .error er => .error er
              | .ok (_, st2) =>
                .ok (.iInputObject typeName,
                  { st2 with registeredInputTypes := typeName :: st2.registeredInputTypes })
      | .time => .error .unknownType
      | .info => .error .unknownType
      | _ => .error .unsupportedType
termination_by fuel _ t => (fuel, tySize t)
decreasing_by
  all_goals simp_wf
  all_goals first
    | exact Prod.Lex.left _ _ (Nat.lt_succ_self _)
    | (apply Prod.Lex.right; simp only [tySize, fieldsSize, List.map_cons, List.sum_cons]; omega)

/-- Field loop of the input-object branch of `TypeAsGraphqlArgumentConfig`:
parse each field's tag, skip excluded fields, map the field type, apply the
non-null wrapper. -/
def argFields (b : SchemaBuilder) :
    Nat → BuildState → List GoField → List (Str × GInput) →
    Except BErr (List (Str × GInput) × BuildState)
  | _, st, [], acc => .ok (acc, st)
  | fuel, st, f :: fs, acc =>
    match GetGqlTag f with
    | .error e => .error (.malformedTag e)
    | .ok (fieldName, isNonNull) =>
      if fieldName = [] ∨ fieldName = "-".toList then argFields b fuel st fs acc
      else
        match TypeAsGraphqlArgumentConfig b fuel st f.ty with
        | .error er => .error er
        | .ok (cfg, st') =>
          let cfg' := if isNonNull then GInput.iNonNull cfg else cfg
          argFields b fuel st' fs (upsert fieldName cfg' acc)
termination_by fuel _ fs _ => (fuel, fieldsSize fs)
decreasing_by
  all_goals simp_wf
  all_goals first
    | exact Prod.Lex.left _ _ (Nat.lt_succ_self _)
    | (apply Prod.Lex.right; simp only [tySize, fieldsSize, List.map_cons, List.sum_cons]; omega)

end

/-- populateGraphqlFieldArgs mirrors builder.go: dereference one pointer
level, require a struct kind, then run the same tag-parse/skip/map/non-null
loop per field (shared here with `argFields`, whose effect coincides). -/
def populateGraphqlFieldArgs (b : SchemaBuilder) (fuel : Nat) (st : BuildState) (t : GoTy) :
    Except BErr (List (Str × GInput) × BuildState) :=
  let d := match t with
    | .ptr e => e
    | _ => t
  match d with
  | .ref n =>
    match assoc n b.env with
    | some sd => argFields b fuel st sd.sfields []
    | none => .error .unknownType
  | _ => .error (if d.kind = GoKind.structK then BErr.unknownType else BErr.argumentsNotStruct)

/-- Denylist of lifecycle/framework method names skipped by the getter path
(builder.go lines 1190–1200). -/
def skipMethodNames : List Str :=
  ["tableName".toList, "tableNames".toList, "beforeCreate".toList, "afterCreate".toList,
    "beforeUpdate".toList, "afterUpdate".toList, "beforeDelete".toList, "afterDelete".toList,
    "beforeSave".toList, "afterSave".toList, "afterFind".toList, "string".toList,
    "graphQLTypeName".toList, "getGroups".toList]

/-- Field-name derivation `strings.ToLower(method.Name[0:1]) + method.Name[1:]`
(ASCII first byte). -/
def lowerFirst : Str → Str
  | [] => []
  | c :: rest => c.toLower :: rest

mutual

/-- TypeAsGraphqlField mirrors builder.go's output-type mapper: custom-type
lookup first, then kind dispatch; map kinds are rejected outright; pointers
consult the custom registry on the dereferenced type and unwrap; struct kinds
go through `structExpand`.  `fuel` is threaded only into the fuel-indexed
input-type mapper used for method arguments; the output walk itself needs no
fuel thanks to the processing-set cycle protection, which is what makes this
definition total. -/
def TypeAsGraphqlField (b : SchemaBuilder) (fuel : Nat) (pr : List Str) (st : BuildState)
    (t : GoTy) : Except BErr (GOutput × BuildState) :=
  match assoc t b.customTypes with
  | some nm => .ok (.gScalar nm, st)
  | none =>
    match t with
    | .int => .ok (.gScalar "Int".toList, st)
    | .str => .ok (.gScalar "String".toList, st)
    | .bool => .ok (.gScalar "Boolean".toList, st)
    | .float => .ok (.gScalar "Float".toList, st)
    | .slice e =>
      match TypeAsGraphqlField b fuel pr st e with
      | .error er => .error er
      | .ok (ef, st') => .ok (.gList ef, st')
    | .map _ _ => .error .unsupportedMapType
    | .ptr e =>
      match assoc e b.customTypes with
      | some nm => .ok (.gScalar nm, st)
      | none =>
        match e with
        | .ref n => structExpand b fuel pr st n
        | e2 => TypeAsGraphqlField b fuel pr st e2
    | .ref n => structExpand b fuel pr st n
    | .time => .error .unknownType
    | .info => .error .unknownType
    | _ => .error .unsupportedType
termination_by (remaining b pr, tySize t)
decreasing_by
  all_goals simp_wf
  all_goals apply Prod.Lex.right
  all_goals (simp only [tySize]; omega)

/-- Object-node expansion of builder.go (lines 1046–1272): registry reuse,
processing-set re-entrance returning the shared registered placeholder (or
creating and registering one), and otherwise field/method accumulation, the
fields-cache write, the post-expansion registry re-check, and the creation and
registration of a freshly named object node (using the `GraphQLTypeName`
override only here, not for placeholders, as in the source). -/
def structExpand (b : SchemaBuilder) (fuel : Nat) (pr : List Str) (st : BuildState)
    (n : Str) : Except BErr (GOutput × BuildState) :=
  match henv : assoc n b.env with
  | none => .error .unknownType
  | some d =>
    match assoc n st.typeRegistry with
    | some existing => .ok (existing, st)
    | none =>
      if hpr : n ∈ pr then
        match assoc n st.typeRegistry with
        | some existing => .ok (existing, st)
        | none =>
          let placeholder := GOutput.gThunkObject st.nextId n
          .ok (placeholder,
            { st with typeRegistry := upsert n placeholder st.typeRegistry,
                      nextId := st.nextId + 1 })
      else
        match buildFields b fuel (n :: pr) st d.sfields [] with
        | .error er => .error er
        | .ok (flds, st1) =>
          match buildMethods b fuel (n :: pr) st1 d.methods flds with
          | .error er => .error er
          | .ok (flds2, st2) =>
            let st3 := { st2 with fieldsCache := upsert n flds2 st2.fieldsCache }
            match assoc n st3.typeRegistry with
            | some existing => .ok (existing, st3)
            | none =>
              let typeName : Str :=
                match d.gqlTypeName with
                | some nm => if nm = [] then n else nm
                | none => n
              let obj := GOutput.gObject st3.nextId typeName
              .ok (obj,
                { st3 with typeRegistry := upsert n obj st3.typeRegistry,
                           nextId := st3.nextId + 1 })
termination_by (remaining b pr, 1)
decreasing_by
  all_goals simp_wf
  all_goals apply Prod.Lex.left
  all_goals {
    have hnames : n ∈ b.env.map Prod.fst := by
      have hgen : ∀ (l : Env) (d' : GoStruct), assoc n l = some d' → n ∈ l.map Prod.fst := by
        intro l
        induction l with
        | nil => intro d' h; exact absurd h (by intro hc; cases hc)
        | cons hd tl ih =>
          intro d' h
          obtain ⟨a, sdef⟩ := hd
          by_cases hcase : a = n
          · subst hcase
            exact List.mem_cons_self _ _
          · have h' : assoc n tl = some d' := by
              rw [show assoc n ((a, sdef) :: tl) =
                    (if a = n then some sdef else assoc n tl) from rfl, if_neg hcase] at h
              exact h
            exact List.mem_cons_of_mem _ (ih _ h')
      exact hgen b.env d henv
    have hfin : n ∈ (b.env.map Prod.fst).toFinset := List.mem_toFinset.mpr hnames
    have hnpr : n ∉ pr.toFinset := fun hc => hpr (List.mem_toFinset.mp hc)
    simp only [remaining, List.toFinset_cons]
    have hsub : (b.env.map Prod.fst).toFinset \ insert n pr.toFinset ⊆
        (b.env.map Prod.fst).toFinset \ pr.toFinset := by
      intro x hx
      rw [Finset.mem_sdiff] at hx ⊢
      exact ⟨hx.1, fun hxp => hx.2 (Finset.mem_insert_of_mem hxp)⟩
    have hne : n ∈ (b.env.map Prod.fst).toFinset \ pr.toFinset :=
      Finset.mem_sdiff.mpr ⟨hfin, hnpr⟩
    have hni : n ∉ (b.env.map Prod.fst).toFinset \ insert n pr.toFinset := by
      rw [Finset.mem_sdiff]
      rintro ⟨-, hx⟩
      exact hx (Finset.mem_insert_self _ _)
    exact Finset.card_lt_card ((Finset.ssubset_iff_of_subset hsub).mpr ⟨n, hne, hni⟩)
  }

/-- Tagged-field loop of the struct expansion (builder.go lines 1099–1123):
parse the tag, skip empty and `-` names, map the field's type, apply the
non-null wrapper, and record the field under its exposed name. -/
def buildFields (b : SchemaBuilder) (fuel : Nat) (pr : List Str) (st : BuildState) :
    List GoField → FieldsMap → Except BErr (FieldsMap × BuildState)
  | [], acc => .ok (acc, st)
  | f :: fs, acc =>
    match GetGqlTag f with
    | .error e => .error (.malformedTag e)
    | .ok (fieldName, isNonNull) =>
      if fieldName = [] ∨ fieldName = "-".toList then buildFields b fuel pr st fs acc
      else
        match TypeAsGraphqlField b fuel pr st f.ty with
        | .error er => .error er
        | .ok (ty, st') =>
          let ty' := if isNonNull then GOutput.gNonNull ty else ty
          buildFields b fuel pr st' fs (upsert fieldName ty' acc)
termination_by fs _ => (remaining b pr, fieldsSize fs)
decreasing_by
  all_goals simp_wf
  all_goals apply Prod.Lex.right
  all_goals (simp only [fieldsSize, List.map_cons, List.sum_cons]; omega)

/-- Exported-method loop of the struct expansion (builder.go lines 1125–1239).
The full-resolver path classifies the bound method with `NewResolveInfo` and
maps its output type, propagating errors; the plain-getter fallback applies
when classification fails and the method is receiver-only with one non-error,
non-interface return whose struct form (if any) is custom or carries a tag,
is not denylisted, and whose mapping errors are swallowed as a skip.  Three
modelling notes: a classified method with no output slot is skipped (the
source would dereference nil there; no claim reaches it); the membership
guard on the output type is a termination guard that always holds because the
output slot is drawn from the result list; and state changes made by a failed
getter-path mapping are dropped together with the swallowed error. -/
def buildMethods (b : SchemaBuilder) (fuel : Nat) (pr : List Str) (st : BuildState) :
    List GoMethod → FieldsMap → Except BErr (FieldsMap × BuildState)
  | [], acc => .ok (acc, st)
  | m :: ms, acc =>
    if m.exported then
      match NewResolveInfo b.env m.sig true with
      | .ok ri =>
        match ri.Output with
        | some outAi =>
          if hmem : outAi.«Type» ∈ m.sig.results then
            match TypeAsGraphqlField b fuel pr st outAi.«Type» with
            | .error er => .error er
            | .ok (ty, st1) =>
              match ri.Input with
              | some inpAi =>
                match populateGraphqlFieldArgs b fuel st1 inpAi.«Type» with
                | .error er => .error er
                | .ok (_, st2) =>
                  buildMethods b fuel pr st2 ms (upsert (lowerFirst m.mname) ty acc)
              | none => buildMethods b fuel pr st1 ms (upsert (lowerFirst m.mname) ty acc)
          else buildMethods b fuel pr st ms acc
        | none => buildMethods b fuel pr st ms acc
      | .error _ =>
        match hres : m.sig.results with
        | [rt] =>
          match m.sig.params with
          | [_] =>
            if rt = GoTy.err ∨ rt.kind = GoKind.interfaceK then buildMethods b fuel pr st ms acc
            else
              let realRT : GoTy :=
                match rt with
                | .ptr e => e
                | _ => rt
              let tagOk : Bool :=
                if realRT.kind = GoKind.structK then
                  match assoc rt b.customTypes with
                  | some _ => true
                  | none =>
                    match assoc realRT b.customTypes with
                    | some _ => true
                    | none => hasStructValidGqlTag b.env realRT
                else true
              if tagOk = false then buildMethods b fuel pr st ms acc
              else if lowerFirst m.mname ∈ skipMethodNames then buildMethods b fuel pr st ms acc
              else
                match TypeAsGraphqlField b fuel pr st rt with
                | .error _ => buildMethods b fuel pr st ms acc
                | .ok (ty, st1) => buildMethods b fuel pr st1 ms (upsert (lowerFirst m.mname) ty acc)
          | _ => buildMethods b fuel pr st ms acc
        | _ => buildMethods b fuel pr st ms acc
    else buildMethods b fuel pr st ms acc
termination_by ms _ => (remaining b pr, methodsSize ms)
decreasing_by
  all_goals simp_wf
  all_goals apply Prod.Lex.right
  all_goals first
    | (have h1 : tySize outAi.«Type» ≤ (m.sig.results.map tySize).sum :=
        List.single_le_sum (fun _ _ => Nat.zero_le _) _ (List.mem_map.mpr ⟨_, hmem, rfl⟩)
       simp only [methodsSize, List.map_cons, List.sum_cons]
       omega)
    | (simp only [methodsSize, hres, List.map_cons, List.map_nil, List.sum_cons, List.sum_nil]
       omega)
    | (simp only [methodsSize, List.map_cons, List.sum_cons]; omega)

end

/-- Values at resolver invocation time.  `nilV` is the nil interface value
(also the invalid `reflect.Value`); `errV` is a non-nil value of the error
type; `ptrV` is a pointer wrapping. -/
inductive GoValue where
  | nilV
  | strV (s : Str)
  | intV (n : Int)
  | boolV (v : Bool)
  | errV (msg : Str)
  | ptrV (v : GoValue)
deriving DecidableEq

/-- ResolveReturns models the return-value translation of `Resolve`
(resolveinfo.go lines 174–188), applied to the values produced by
`Func.Call`: extract the output slot value (nil for void callables), then, if
an error slot exists and its value is a non-nil error, the result is that
error with a nil output (the output is discarded).  The argument-assembly
phase of `Resolve` (lines 141–171) is upstream of this region. -/
def ResolveReturns (r : ResolveInfo) (values : List GoValue) : GoValue × GoValue :=
  let output : GoValue :=
    match r.Output with
    | some o => values.getD o.Index .nilV
    | none => .nilV
  match r.Error with
  | some e =>
    match values.getD e.Index .nilV with
    | .errV m => (.nilV, .errV m)
    | _ => (output, .nilV)
  | none => (output, .nilV)

/-- getterResolve models the synthesized plain-getter resolver closure
(builder.go lines 1213–1235): an invalid (absent) source yields `(nil, nil)`;
otherwise a non-pointer source is addressed (`Addr()` and the
copy-then-address fallback agree at the value level), the method is called
with the pointer receiver, and its single result is returned with a nil
error. -/
def getterResolve (methodFn : GoValue → GoValue) (source : Option GoValue) :
    GoValue × GoValue :=
  match source with
  | none => (.nilV, .nilV)
  | some v =>
    let sourceVal : GoValue :=
      match v with
      | .ptrV w => .ptrV w
      | _ => .ptrV v
    let results := [methodFn sourceVal]
    match results with
    | r :: _ => (r, .nilV)
    | [] => (.nilV, .nilV)

/-- Shared tagged-field layout for the deduplication claim: one field exposed
as `id`, non-null, of string type. -/
def dupFields : List GoField := [⟨"ID".toList, "id,nonNull".toList, .str⟩]

/-- Two distinct struct declarations with identical ordered
(exposedName, fieldType) pairs, used as input types in one build. -/
def envDup : Env :=
  [("AInput".toList, ⟨dupFields, [], none⟩), ("BInput".toList, ⟨dupFields, [], none⟩)]

/-- Declaration of a self-referential struct `A` with a string field and a
`*A` field. -/
def selfRefEnv (A : Str) : Env :=
  [(A, ⟨[⟨"Name".toList, "name".toList, .str⟩,
         ⟨"Self".toList, "self".toList, .ptr (.ref A)⟩], [], none⟩)]

/-- Expected final build state of the self-referential expansion: the one
placeholder node registered for `A`, and the cached field set in which `self`
carries that same node. -/
def selfRefFinalState (A : Str) : BuildState :=
  ⟨[(A, .gThunkObject 0 A)],
   [(A, [("name".toList, .gScalar "String".toList), ("self".toList, .gThunkObject 0 A)])],
   [], [], 1⟩

/-- Struct whose map-typed field is excluded by the `-` tag, next to an
ordinary string field. -/
def mapSkipEnv : Env :=
  [("S".toList, ⟨[⟨"Data".toList, "-".toList, .map .str .str⟩,
    ⟨"Name".toList, "name".toList, .str⟩], [], none⟩)]

/-- Struct with one annotated field, used as the generic input type of the
permutation claim. -/
def taggedInputEnv : Env :=
  [("In".toList, ⟨[⟨"A".toList, "a".toList, .str⟩], [], none⟩)]

/-- Struct with a field but no annotation at all, for the
zero-annotated-fields claim. -/
def untaggedEnv : Env :=
  [("NoTag".toList, ⟨[⟨"A".toList, [], .str⟩], [], none⟩)]

theorem splitComma_ne_nil (l : Str) : splitComma l ≠ [] := by
  induction l with
  | nil => simp [splitComma]
  | cons c rest ih =>
    by_cases h : c = ','
    · simp [splitComma, h]
    · simp only [splitComma, if_neg h]
      cases hs : splitComma rest with
      | nil => exact absurd hs ih
      | cons s ss => simp

theorem splitComma_no_comma (l : Str) (h : l.count ',' = 0) : splitComma l = [l] := by
  induction l with
  | nil => rfl
  | cons c rest ih =>
    by_cases hc : c = ','
    · subst hc
      simp [List.count_cons] at h
    · have hr : rest.count ',' = 0 := by
        simpa [List.count_cons, beq_iff_eq, Ne.symm hc] using h
      simp [splitComma, if_neg hc, ih hr]

theorem splitComma_append (l r : Str) (h : l.count ',' = 0) :
    splitComma (l ++ ',' :: r) = l :: splitComma r := by
  induction l with
  | nil => simp [splitComma]
  | cons c l' ih =>
    by_cases hc : c = ','
    · subst hc
      simp [List.count_cons] at h
    · have hl' : l'.count ',' = 0 := by
        simpa [List.count_cons, beq_iff_eq, Ne.symm hc] using h
      simp only [List.cons_append, splitComma, if_neg hc, List.append_eq, ih hl']

theorem splitComma_length (l : Str) : (splitComma l).length = l.count ',' + 1 := by
  induction l with
  | nil => simp [splitComma]
  | cons c rest ih =>
    by_cases hc : c = ','
    · subst hc
      simp [splitComma, List.count_cons, ih]
    · simp only [splitComma, if_neg hc]
      cases hs : splitComma rest with
      | nil => exact absurd hs (splitComma_ne_nil rest)
      | cons s ss =>
        rw [hs] at ih
        simp only [List.length_cons] at ih ⊢
        simp [List.count_cons, beq_iff_eq, Ne.symm hc]
        omega

/-- C3: an annotation string with no comma parses to the whole string as
exposed name with `nonNull` false; with exactly one comma it parses to the
left part with `nonNull` true exactly when the right part is the literal
`nonNull` token and fails with a format error otherwise; with two or more
commas it fails with a format error. -/
theorem parseGqlTag_grammar (tag : Str) :
    (tag.count ',' = 0 → ParseGqlTag tag = .ok ⟨tag, false⟩) ∧
    (∀ l r : Str, l.count ',' = 0 → r.count ',' = 0 → tag = l ++ ',' :: r →
      ParseGqlTag tag =
        if r = "nonNull".toList then .ok ⟨l, true⟩ else .error .badFlag) ∧
    (2 ≤ tag.count ',' → ParseGqlTag tag = .error .tooManySections) := by
  refine ⟨?_, ?_, ?_⟩
  · intro h
    unfold ParseGqlTag
    rw [splitComma_no_comma tag h]
  · rintro l r hl hr rfl
    have h1 := splitComma_append l r hl
    rw [splitComma_no_comma r hr] at h1
    unfold ParseGqlTag
    rw [h1]
  · intro h
    have hlen : 3 ≤ (splitComma tag).length := by
      rw [splitComma_length]
      omega
    unfold ParseGqlTag
    cases hs : splitComma tag with
    | nil => rfl
    | cons a t1 =>
      cases t1 with
      | nil => rw [hs] at hlen; simp at hlen
      | cons b t2 =>
        cases t2 with
        | nil => rw [hs] at hlen; simp at hlen
        | cons cc t3 => rfl

/-- C3 witness: concrete instances of all three grammar branches. -/
theorem parseGqlTag_grammar_witness :
    ParseGqlTag "name,nonNull".toList = .ok ⟨"name".toList, true⟩ ∧
    ParseGqlTag "name,foo".toList = .error .badFlag ∧
    ParseGqlTag "name".toList = .ok ⟨"name".toList, false⟩ ∧
    ParseGqlTag "name,nonNull,foo".toList = .error .tooManySections := by
  refine ⟨?_, ?_, ?_, ?_⟩
  · have h := (parseGqlTag_grammar "name,nonNull".toList).2.1 "name".toList "nonNull".toList
      (by decide) (by decide) (by decide)
    simpa using h
  · have h := (parseGqlTag_grammar "name,foo".toList).2.1 "name".toList "foo".toList
      (by decide) (by decide) (by decide)
    simpa using h
  · exact (parseGqlTag_grammar "name".toList).1 (by decide)
  · exact (parseGqlTag_grammar "name,nonNull,foo".toList).2.2 (by decide)

theorem classifyIns_error (ts : List GoTy) :
    ∀ i c inf inp e, classifyIns ts i c inf inp = .error e → e = RIErr.ambiguousInput := by
  induction ts with
  | nil =>
    intro i c inf inp e h
    simp [classifyIns] at h
  | cons t rest ih =>
    intro i c inf inp e h
    simp only [classifyIns] at h
    split at h
    · exact ih _ _ _ _ _ h
    · split at h
      · exact ih _ _ _ _ _ h
      · split at h
        · exact ih _ _ _ _ _ h
        · injection h with h
          exact h.symm

theorem classifyOuts_error (ts : List GoTy) :
    ∀ i outp er e, classifyOuts ts i outp er = .error e → e = RIErr.ambiguousOutput := by
  induction ts with
  | nil =>
    intro i outp er e h
    simp [classifyOuts] at h
  | cons t rest ih =>
    intro i outp er e h
    simp only [classifyOuts] at h
    split at h
    · exact ih _ _ _ _ h
    · split at h
      · exact ih _ _ _ _ h
      · injection h with h
        exact h.symm

theorem validateOutput_error (env : Env) (r : ResolveInfo) (e : RIErr)
    (h : r.validateOutput env = some e) :
    e = RIErr.missingOutput ∨ e = RIErr.outputNoGqlTag := by
  unfold ResolveInfo.validateOutput at h
  split at h
  · split at h
    · injection h with h
      exact Or.inl h.symm
    · cases h
  · split at h
    · injection h with h
      exact Or.inr h.symm
    · cases h

theorem validate_error (env : Env) (r : ResolveInfo) (e : RIErr)
    (h : r.Validate env = some e) :
    e = RIErr.inputNotStruct ∨ e = RIErr.inputNoGqlTag ∨ e = RIErr.missingOutput ∨
      e = RIErr.outputNoGqlTag := by
  unfold ResolveInfo.Validate at h
  split at h
  · split at h
    · injection h with h
      exact Or.inl h.symm
    · split at h
      · injection h with h
        exact Or.inr (Or.inl h.symm)
      · rcases validateOutput_error env r e h with h' | h'
        · exact Or.inr (Or.inr (Or.inl h'))
        · exact Or.inr (Or.inr (Or.inr h'))
  · rcases validateOutput_error env r e h with h' | h'
    · exact Or.inr (Or.inr (Or.inl h'))
    · exact Or.inr (Or.inr (Or.inr h'))

theorem classifySignature_error_not_count (env : Env) (sig : FnSig) (isBound : Bool)
    (src : Option ArgInfo) (maxArgs baseIdx : Nat)
    (hp : ¬ sig.params.length > maxArgs) (hr : ¬ sig.results.length > 2) (e : RIErr)
    (h : classifySignature env sig isBound src maxArgs baseIdx = .error e) :
    e ≠ RIErr.tooManyArguments ∧ e ≠ RIErr.tooManyReturns := by
  unfold classifySignature at h
  rw [if_neg hp, if_neg hr] at h
  have hcases : e = RIErr.ambiguousInput ∨ e = RIErr.ambiguousOutput ∨
      e = RIErr.inputNotStruct ∨ e = RIErr.inputNoGqlTag ∨ e = RIErr.missingOutput ∨
      e = RIErr.outputNoGqlTag := by
    cases hIns : classifyIns (sig.params.drop baseIdx) baseIdx none none none with
    | error e' =>
      rw [hIns] at h
      injection h with h
      exact Or.inl (h ▸ classifyIns_error _ _ _ _ _ _ hIns)
    | ok triple =>
      rw [hIns] at h
      obtain ⟨c, inf, inp⟩ := triple
      cases hOuts : classifyOuts sig.results 0 none none with
      | error e' =>
        rw [hOuts] at h
        injection h with h
        exact Or.inr (Or.inl (h ▸ classifyOuts_error _ _ _ _ _ hOuts))
      | ok pair =>
        rw [hOuts] at h
        obtain ⟨outp, er⟩ := pair
        simp only [] at h
        cases hV : ResolveInfo.Validate ⟨isBound, src, c, inf, inp, outp, er⟩ env with
        | none => rw [hV] at h; cases h
        | some e' =>
          rw [hV] at h
          injection h with h
          subst h
          rcases validate_error env _ _ hV with h' | h' | h' | h' <;> tauto
  rcases hcases with rfl | rfl | rfl | rfl | rfl | rfl <;> exact ⟨by decide, by decide⟩

theorem classifySignature_args (env : Env) (sig : FnSig) (isBound : Bool)
    (src : Option ArgInfo) (maxArgs baseIdx : Nat) (hp : sig.params.length > maxArgs) :
    classifySignature env sig isBound src maxArgs baseIdx = .error .tooManyArguments := by
  unfold classifySignature
  rw [if_pos hp]

theorem classifySignature_rets (env : Env) (sig : FnSig) (isBound : Bool)
    (src : Option ArgInfo) (maxArgs baseIdx : Nat) (hp : ¬ sig.params.length > maxArgs)
    (hr : sig.results.length > 2) :
    classifySignature env sig isBound src maxArgs baseIdx = .error .tooManyReturns := by
  unfold classifySignature
  rw [if_neg hp, if_pos hr]

theorem newResolveInfo_unbound (env : Env) (sig : FnSig) :
    NewResolveInfo env sig false = classifySignature env sig false none 3 0 := rfl

theorem newResolveInfo_bound_nil (env : Env) (sig : FnSig) (hp : sig.params = []) :
    NewResolveInfo env sig true = .error .noReceiver := by
  unfold NewResolveInfo
  rw [if_pos rfl, hp]

theorem newResolveInfo_bound_cons (env : Env) (sig : FnSig) (recvTy : GoTy)
    (rest : List GoTy) (hp : sig.params = recvTy :: rest) :
    NewResolveInfo env sig true =
      if (NewArgInfo recvTy 0).RealType.kind ≠ GoKind.structK then .error .receiverNotStruct
      else classifySignature env sig true (some (NewArgInfo recvTy 0)) 4 1 := by
  unfold NewResolveInfo
  rw [if_pos rfl, hp]

/-- C4: an unbound callable with more than 3 parameters is rejected with the
too-many-arguments error; a bound callable with more than 4 parameters is
rejected, and with the too-many-arguments error whenever its receiver passes
the (earlier) struct-kind check; a callable with more than 2 return values is
rejected with the too-many-returns error whenever the earlier receiver and
parameter-count checks pass; a callable within both limits is never rejected
with either count error. -/
theorem newResolveInfo_count_limits (env : Env) (sig : FnSig) :
    (sig.params.length > 3 → NewResolveInfo env sig false = .error .tooManyArguments) ∧
    (sig.params.length > 4 →
      (∃ e, NewResolveInfo env sig true = .error e) ∧
      (∀ recvTy rest, sig.params = recvTy :: rest →
        (NewArgInfo recvTy 0).RealType.kind = GoKind.structK →
        NewResolveInfo env sig true = .error .tooManyArguments)) ∧
    (sig.results.length > 2 →
      (sig.params.length ≤ 3 → NewResolveInfo env sig false = .error .tooManyReturns) ∧
      (∀ recvTy rest, sig.params = recvTy :: rest →
        (NewArgInfo recvTy 0).RealType.kind = GoKind.structK →
        sig.params.length ≤ 4 →
        NewResolveInfo env sig true = .error .tooManyReturns)) ∧
    (∀ isBound : Bool, sig.params.length ≤ (if isBound then 4 else 3) →
      sig.results.length ≤ 2 →
      ∀ e, NewResolveInfo env sig isBound = .error e →
        e ≠ RIErr.tooManyArguments ∧ e ≠ RIErr.tooManyReturns) := by
  refine ⟨?_, ?_, ?_, ?_⟩
  · intro h
    rw [newResolveInfo_unbound]
    exact classifySignature_args env sig false none 3 0 h
  · intro h
    constructor
    · cases hp : sig.params with
      | nil => rw [hp] at h; simp at h
      | cons recvTy rest =>
        rw [newResolveInfo_bound_cons env sig recvTy rest hp]
        by_cases hk : (NewArgInfo recvTy 0).RealType.kind = GoKind.structK
        · rw [if_neg (by simp [hk])]
          exact ⟨RIErr.tooManyArguments, classifySignature_args env sig true _ 4 1 h⟩
        · rw [if_pos (by simp [hk])]
          exact ⟨RIErr.receiverNotStruct, rfl⟩
    · intro recvTy rest hp hk
      rw [newResolveInfo_bound_cons env sig recvTy rest hp]
      rw [if_neg (by simp [hk])]
      exact classifySignature_args env sig true _ 4 1 h
  · intro h
    constructor
    · intro hp
      rw [newResolveInfo_unbound]
      exact classifySignature_rets env sig false none 3 0 (by omega) h
    · intro recvTy rest hpeq hk hp
      rw [newResolveInfo_bound_cons env sig recvTy rest hpeq]
      rw [if_neg (by simp [hk])]
      exact classifySignature_rets env sig true _ 4 1 (by omega) h
  · intro isBound hp hr e h
    cases isBound with
    | false =>
      rw [newResolveInfo_unbound] at h
      simp only [if_false, Bool.false_eq_true] at hp
      exact classifySignature_error_not_count env sig false none 3 0 (by omega) (by omega) e h
    | true =>
      simp only [if_true] at hp
      cases hpl : sig.params with
      | nil =>
        rw [newResolveInfo_bound_nil env sig hpl] at h
        injection h with h
        subst h
        exact ⟨by decide, by decide⟩
      | cons recvTy rest =>
        rw [newResolveInfo_bound_cons env sig recvTy rest hpl] at h
        by_cases hk : (NewArgInfo recvTy 0).RealType.kind = GoKind.structK
        · rw [if_neg (by simp [hk])] at h
          exact classifySignature_error_not_count env sig true (some (NewArgInfo recvTy 0)) 4 1
            (by omega) (by omega) e h
        · rw [if_pos (by simp [hk])] at h
          injection h with h
          subst h
          exact ⟨by decide, by decide⟩

/-- C4 witness: concrete rejections and an accepted in-limit callable. -/
theorem newResolveInfo_count_limits_witness :
    NewResolveInfo [] ⟨[.str, .str, .str, .str], []⟩ false = .error .tooManyArguments ∧
    NewResolveInfo [] ⟨[.ref "R".toList, .str, .str, .str, .str], [.str]⟩ true =
      .error .tooManyArguments ∧
    NewResolveInfo [] ⟨[], [.int, .str, .err]⟩ false = .error .tooManyReturns := by
  refine ⟨?_, ?_, ?_⟩
  · exact (newResolveInfo_count_limits [] _).1 (by decide)
  · exact ((newResolveInfo_count_limits [] _).2.1 (by decide)).2 (.ref "R".toList) _ rfl
      (by decide)
  · exact ((newResolveInfo_count_limits [] _).2.2.1 (by decide)).1 (by decide)

theorem perm_pair {α : Type} {u v : α} {q : List α} (h : q.Perm [u, v]) :
    q = [u, v] ∨ q = [v, u] := by
  have hl : q.length = 2 := by simpa using h.length_eq
  rcases q with _ | ⟨x, _ | ⟨y, _ | ⟨z, t⟩⟩⟩ <;> simp at hl
  have hx : x = u ∨ x = v := by simpa using h.mem_iff.mp (show x ∈ [x, y] by simp)
  rcases hx with rfl | rfl
  · have hy : [y] = [v] := List.perm_singleton.mp ((List.perm_cons x).mp h)
    exact Or.inl (by rw [hy])
  · have hy : [y] = [u] :=
      List.perm_singleton.mp ((List.perm_cons x).mp (h.trans (List.Perm.swap x u [])))
    exact Or.inr (by rw [hy])

theorem perm_three {α : Type} {a b c : α} {p : List α} (h : p.Perm [a, b, c]) :
    p = [a, b, c] ∨ p = [a, c, b] ∨ p = [b, a, c] ∨ p = [b, c, a] ∨
      p = [c, a, b] ∨ p = [c, b, a] := by
  have hl : p.length = 3 := by simpa using h.length_eq
  rcases p with _ | ⟨x, _ | ⟨y, _ | ⟨z, _ | ⟨w, t⟩⟩⟩⟩ <;> simp at hl
  have hx : x = a ∨ x = b ∨ x = c := by
    simpa using h.mem_iff.mp (show x ∈ [x, y, z] by simp)
  rcases hx with rfl | rfl | rfl
  · have h2 := (List.perm_cons x).mp h
    rcases perm_pair h2 with h3 | h3 <;> rw [h3] <;> tauto
  · have h2 := (List.perm_cons x).mp (h.trans (List.Perm.swap x a [c]))
    rcases perm_pair h2 with h3 | h3 <;> rw [h3] <;> tauto
  · have h2 := (List.perm_cons x).mp
      (h.trans ((List.Perm.cons a (List.Perm.swap x b [])).trans (List.Perm.swap x a [b])))
    rcases perm_pair h2 with h3 | h3 <;> rw [h3] <;> tauto

/-- C5: for any permutation of the context marker, the metadata marker and
one annotated input struct as the (unbound) parameter list, classification
succeeds and assigns the context marker to the context slot, the metadata
marker to the info slot and the struct to the input slot, each at its own
position. -/
theorem newResolveInfo_permutation (env : Env) (n : Str)
    (hstruct : hasStructValidGqlTag env (.ref n) = true)
    (p : List GoTy) (hp : p.Perm [GoTy.ctx, GoTy.info, GoTy.ref n]) :
    ∃ r, NewResolveInfo env ⟨p, [GoTy.str]⟩ false = .ok r ∧
      (∃ ic, r.Context = some (NewArgInfo GoTy.ctx ic) ∧ p.get? ic = some GoTy.ctx) ∧
      (∃ ii, r.Info = some (NewArgInfo GoTy.info ii) ∧ p.get? ii = some GoTy.info) ∧
      (∃ iv, r.Input = some (NewArgInfo (GoTy.ref n) iv) ∧ p.get? iv = some (GoTy.ref n)) := by
  rcases perm_three hp with rfl | rfl | rfl | rfl | rfl | rfl
  · refine ⟨⟨false, none, some (NewArgInfo GoTy.ctx 0), some (NewArgInfo GoTy.info 1),
        some (NewArgInfo (GoTy.ref n) 2), some (NewArgInfo GoTy.str 0), none⟩,
      ?_, ⟨0, rfl, rfl⟩, ⟨1, rfl, rfl⟩, ⟨2, rfl, rfl⟩⟩
    rw [newResolveInfo_unbound]
    unfold classifySignature
    simp [classifyIns, classifyOuts, NewArgInfo, ResolveInfo.Validate,
      ResolveInfo.validateOutput, GoTy.kind, hstruct]
  · refine ⟨⟨false, none, some (NewArgInfo GoTy.ctx 0), some (NewArgInfo GoTy.info 2),
        some (NewArgInfo (GoTy.ref n) 1), some (NewArgInfo GoTy.str 0), none⟩,
      ?_, ⟨0, rfl, rfl⟩, ⟨2, rfl, rfl⟩, ⟨1, rfl, rfl⟩⟩
    rw [newResolveInfo_unbound]
    unfold classifySignature
    simp [classifyIns, classifyOuts, NewArgInfo, ResolveInfo.Validate,
      ResolveInfo.validateOutput, GoTy.kind, hstruct]
  · refine ⟨⟨false, none, some (NewArgInfo GoTy.ctx 1), some (NewArgInfo GoTy.info 0),
        some (NewArgInfo (GoTy.ref n) 2), some (NewArgInfo GoTy.str 0), none⟩,
      ?_, ⟨1, rfl, rfl⟩, ⟨0, rfl, rfl⟩, ⟨2, rfl, rfl⟩⟩
    rw [newResolveInfo_unbound]
    unfold classifySignature
    simp [classifyIns, classifyOuts, NewArgInfo, ResolveInfo.Validate,
      ResolveInfo.validateOutput, GoTy.kind, hstruct]
  · refine ⟨⟨false, none, some (NewArgInfo GoTy.ctx 2), some (NewArgInfo GoTy.info 0),
        some (NewArgInfo (GoTy.ref n) 1), some (NewArgInfo GoTy.str 0), none⟩,
      ?_, ⟨2, rfl, rfl⟩, ⟨0, rfl, rfl⟩, ⟨1, rfl, rfl⟩⟩
    rw [newResolveInfo_unbound]
    unfold classifySignature
    simp [classifyIns, classifyOuts, NewArgInfo, ResolveInfo.Validate,
      ResolveInfo.validateOutput, GoTy.kind, hstruct]
  · refine ⟨⟨false, none, some (NewArgInfo GoTy.ctx 1), some (NewArgInfo GoTy.info 2),
        some (NewArgInfo (GoTy.ref n) 0), some (NewArgInfo GoTy.str 0), none⟩,
      ?_, ⟨1, rfl, rfl⟩, ⟨2, rfl, rfl⟩, ⟨0, rfl, rfl⟩⟩
    rw [newResolveInfo_unbound]
    unfold classifySignature
    simp [classifyIns, classifyOuts, NewArgInfo, ResolveInfo.Validate,
      ResolveInfo.validateOutput, GoTy.kind, hstruct]
  · refine ⟨⟨false, none, some (NewArgInfo GoTy.ctx 2), some (NewArgInfo GoTy.info 1),
        some (NewArgInfo (GoTy.ref n) 0), some (NewArgInfo GoTy.str 0), none⟩,
      ?_, ⟨2, rfl, rfl⟩, ⟨1, rfl, rfl⟩, ⟨0, rfl, rfl⟩⟩
    rw [newResolveInfo_unbound]
    unfold classifySignature
    simp [classifyIns, classifyOuts, NewArgInfo, ResolveInfo.Validate,
      ResolveInfo.validateOutput, GoTy.kind, hstruct]

/-- C5 witness: concrete permuted signature over the one-tagged-field input
struct. -/
theorem newResolveInfo_permutation_witness :
    hasStructValidGqlTag taggedInputEnv (.ref "In".toList) = true ∧
    ([GoTy.ref "In".toList, GoTy.ctx, GoTy.info] : List GoTy).Perm
      [GoTy.ctx, GoTy.info, GoTy.ref "In".toList] ∧
    (∃ r, NewResolveInfo taggedInputEnv
        ⟨[GoTy.ref "In".toList, GoTy.ctx, GoTy.info], [GoTy.str]⟩ false = .ok r ∧
      (∃ ic, r.Context = some (NewArgInfo GoTy.ctx ic) ∧
        ([GoTy.ref "In".toList, GoTy.ctx, GoTy.info] : List GoTy).get? ic = some GoTy.ctx) ∧
      (∃ ii, r.Info = some (NewArgInfo GoTy.info ii) ∧
        ([GoTy.ref "In".toList, GoTy.ctx, GoTy.info] : List GoTy).get? ii = some GoTy.info) ∧
      (∃ iv, r.Input = some (NewArgInfo (GoTy.ref "In".toList) iv) ∧
        ([GoTy.ref "In".toList, GoTy.ctx, GoTy.info] : List GoTy).get? iv =
          some (GoTy.ref "In".toList))) :=
  ⟨by decide, by decide,
    newResolveInfo_permutation taggedInputEnv "In".toList (by decide) _ (by decide)⟩

theorem validate_input_some (env : Env) (r : ResolveInfo) (ai : ArgInfo)
    (h : r.Input = some ai) :
    r.Validate env =
      (if ai.RealType.kind ≠ GoKind.structK ∨ ai.IsSlice then some .inputNotStruct
       else if ¬ hasStructValidGqlTag env ai.RealType then some .inputNoGqlTag
       else r.validateOutput env) := by
  unfold ResolveInfo.Validate
  rw [h]

theorem validate_input_none (env : Env) (r : ResolveInfo) (h : r.Input = none) :
    r.Validate env = r.validateOutput env := by
  unfold ResolveInfo.Validate
  rw [h]

theorem validateOutput_none (env : Env) (r : ResolveInfo) (h : r.Output = none) :
    r.validateOutput env = if ¬ r.IsBound then some .missingOutput else none := by
  unfold ResolveInfo.validateOutput
  rw [h]

theorem validateOutput_some (env : Env) (r : ResolveInfo) (ao : ArgInfo)
    (h : r.Output = some ao) :
    r.validateOutput env =
      if ao.RealType.kind = GoKind.structK ∧ ¬ hasStructValidGqlTag env ao.RealType then
        some .outputNoGqlTag
      else none := by
  unfold ResolveInfo.validateOutput
  rw [h]

/-- C6: an input slot whose (struct-kind, non-slice) type exposes no annotated
field makes validation fail with the invalid-input-shape error; an output slot
whose struct-kind type exposes no annotated field makes validation fail with
the invalid-output-shape error; an unbound classification with no output slot
fails with the missing-output error. -/
theorem validate_untagged_shapes (env : Env) :
    (∀ (r : ResolveInfo) (ai : ArgInfo), r.Input = some ai →
      ai.RealType.kind = GoKind.structK → ai.IsSlice = false →
      hasStructValidGqlTag env ai.RealType = false →
      r.Validate env = some .inputNoGqlTag) ∧
    (∀ (r : ResolveInfo) (ao : ArgInfo), r.Input = none → r.Output = some ao →
      ao.RealType.kind = GoKind.structK →
      hasStructValidGqlTag env ao.RealType = false →
      r.Validate env = some .outputNoGqlTag) ∧
    (∀ r : ResolveInfo, r.Input = none → r.Output = none → r.IsBound = false →
      r.Validate env = some .missingOutput) := by
  refine ⟨?_, ?_, ?_⟩
  · intro r ai hIn hk hs ht
    rw [validate_input_some env r ai hIn, if_neg (by simp [hk, hs]), if_pos (by simp [ht])]
  · intro r ao hIn hOut hk ht
    rw [validate_input_none env r hIn, validateOutput_some env r ao hOut,
      if_pos (by simp [hk, ht])]
  · intro r hIn hOut hB
    rw [validate_input_none env r hIn, validateOutput_none env r hOut, if_pos (by simp [hB])]

/-- C6 witness: validation of concrete classifications over the untagged
struct. -/
theorem validate_untagged_shapes_witness :
    (ResolveInfo.mk false none none none
        (some (NewArgInfo (GoTy.ref "NoTag".toList) 0))
        (some (NewArgInfo GoTy.str 0)) none).Validate untaggedEnv =
      some .inputNoGqlTag ∧
    (ResolveInfo.mk false none none none none
        (some (NewArgInfo (GoTy.ref "NoTag".toList) 0)) none).Validate untaggedEnv =
      some .outputNoGqlTag ∧
    (ResolveInfo.mk false none none none none none none).Validate untaggedEnv =
      some .missingOutput := by
  refine ⟨?_, ?_, ?_⟩
  · exact (validate_untagged_shapes untaggedEnv).1 _ _ rfl (by decide) (by decide) (by decide)
  · exact (validate_untagged_shapes untaggedEnv).2.1 _ _ rfl rfl (by decide) (by decide)
  · exact (validate_untagged_shapes untaggedEnv).2.2 _ rfl rfl rfl

/-- C7: when the classification has an error slot and the callable's error
return value is non-nil, the invocation result is that error with the output
discarded; when the error value is nil, or no error slot exists, the result
is the output slot value (nil for void callables) with no error. -/
theorem resolveReturns_error_precedence (r : ResolveInfo) (values : List GoValue) :
    (∀ ei, r.Error = some ei → ∀ m, values.getD ei.Index GoValue.nilV = .errV m →
      ResolveReturns r values = (.nilV, .errV m)) ∧
    (∀ ei, r.Error = some ei → values.getD ei.Index GoValue.nilV = .nilV →
      ∀ o, r.Output = some o →
        ResolveReturns r values = (values.getD o.Index .nilV, .nilV)) ∧
    (∀ ei, r.Error = some ei → values.getD ei.Index GoValue.nilV = .nilV →
      r.Output = none → ResolveReturns r values = (.nilV, .nilV)) ∧
    (r.Error = none → ∀ o, r.Output = some o →
      ResolveReturns r values = (values.getD o.Index .nilV, .nilV)) ∧
    (r.Error = none → r.Output = none → ResolveReturns r values = (.nilV, .nilV)) := by
  refine ⟨?_, ?_, ?_, ?_, ?_⟩
  · intro ei hE m hv
    simp only [ResolveReturns, hE, hv]
  · intro ei hE hv o hO
    simp only [ResolveReturns, hE, hv, hO]
  · intro ei hE hv hO
    simp only [ResolveReturns, hE, hv, hO]
  · intro hE o hO
    simp only [ResolveReturns, hE, hO]
  · intro hE hO
    simp only [ResolveReturns, hE, hO]

/-- C7 witness: a concrete classification with output slot 0 and error slot 1,
invoked once with a non-nil and once with a nil error value. -/
theorem resolveReturns_error_precedence_witness :
    ResolveReturns
      (ResolveInfo.mk true none none none none (some (NewArgInfo GoTy.str 0))
        (some (NewArgInfo GoTy.err 1)))
      [.strV "out".toList, .errV "boom".toList] = (.nilV, .errV "boom".toList) ∧
    ResolveReturns
      (ResolveInfo.mk true none none none none (some (NewArgInfo GoTy.str 0))
        (some (NewArgInfo GoTy.err 1)))
      [.strV "out".toList, .nilV] = (.strV "out".toList, .nilV) := by
  constructor
  · exact (resolveReturns_error_precedence _ _).1 (NewArgInfo GoTy.err 1) rfl
      "boom".toList rfl
  · exact (resolveReturns_error_precedence
      (ResolveInfo.mk true none none none none (some (NewArgInfo GoTy.str 0))
        (some (NewArgInfo GoTy.err 1)))
      [.strV "out".toList, .nilV]).2.1 (NewArgInfo GoTy.err 1) rfl rfl
      (NewArgInfo GoTy.str 0) rfl

/-- C9: the synthesized plain-getter resolver never returns an error: an
invalid (absent) source yields a nil value and no error, and a present source
yields the method's single return value (called on the pointer-adjusted
receiver) and no error. -/
theorem getterResolve_never_errors (m : GoValue → GoValue) :
    (∀ source, (getterResolve m source).2 = GoValue.nilV) ∧
    getterResolve m none = (.nilV, .nilV) ∧
    (∀ w, getterResolve m (some (.ptrV w)) = (m (.ptrV w), .nilV)) ∧
    (∀ v, ∃ recv, getterResolve m (some v) = (m recv, .nilV)) := by
  refine ⟨?_, rfl, ?_, ?_⟩
  · intro source
    cases source with
    | none => rfl
    | some v => cases v <;> rfl
  · intro w
    rfl
  · intro v
    cases v <;> exact ⟨_, rfl⟩

/-- C8: a map-kind type reached during output-type mapping is rejected with
the unsupported-map-type error (when no custom override is registered for
it); a struct field whose annotation excludes it (empty or `-` exposed name)
is skipped before its type is mapped, so the field loop continues unchanged;
and the concrete struct with a `-`-excluded map field and a string field
builds successfully, at any fuel, into an object exposing only the string
field. -/
theorem typeAsGraphqlField_map_rejection (b : SchemaBuilder) (fuel : Nat) (pr : List Str)
    (st : BuildState) :
    (∀ k v, assoc (GoTy.map k v) b.customTypes = none →
      TypeAsGraphqlField b fuel pr st (.map k v) = .error .unsupportedMapType) ∧
    (∀ f fs acc fieldName isNonNull, GetGqlTag f = .ok (fieldName, isNonNull) →
      (fieldName = [] ∨ fieldName = "-".toList) →
      buildFields b fuel pr st (f :: fs) acc = buildFields b fuel pr st fs acc) ∧
    TypeAsGraphqlField (NewSchemaBuilder mapSkipEnv) fuel [] initialBuildState
        (.ref "S".toList) =
      .ok (.gObject 0 "S".toList,
        ⟨[("S".toList, .gObject 0 "S".toList)],
         [("S".toList, [("name".toList, .gScalar "String".toList)])], [], [], 1⟩) := by
  refine ⟨?_, ?_, ?_⟩
  · intro k v h
    simp only [TypeAsGraphqlField, h]
  · intro f fs acc fieldName isNonNull hTag hskip
    simp only [buildFields, hTag]
    rw [if_pos hskip]
  · simp [TypeAsGraphqlField, structExpand, buildFields, buildMethods, NewSchemaBuilder,
      RegisterCustomType, createDateTimeScalar, mapSkipEnv, initialBuildState, assoc, upsert,
      GetGqlTag, ParseGqlTag, splitComma, GoTy.kind, remaining]

/-- C8 witness: the general conjuncts instantiated at the concrete builder
over the excluded-map-field struct. -/
theorem typeAsGraphqlField_map_rejection_witness :
    TypeAsGraphqlField (NewSchemaBuilder mapSkipEnv) 0 [] initialBuildState
        (.map .str .str) = .error .unsupportedMapType ∧
    buildFields (NewSchemaBuilder mapSkipEnv) 0 [] initialBuildState
        [⟨"Data".toList, "-".toList, .map .str .str⟩] [] =
      buildFields (NewSchemaBuilder mapSkipEnv) 0 [] initialBuildState [] [] := by
  constructor
  · exact (typeAsGraphqlField_map_rejection (NewSchemaBuilder mapSkipEnv) 0 []
      initialBuildState).1 .str .str (by decide)
  · exact (typeAsGraphqlField_map_rejection (NewSchemaBuilder mapSkipEnv) 0 []
      initialBuildState).2.1 _ [] [] "-".toList false rfl (Or.inr rfl)

theorem assoc_cons_self {α β : Type} [DecidableEq α] (k : α) (v : β) (rest : List (α × β)) :
    assoc k ((k, v) :: rest) = some v := by
  simp [assoc]

theorem structExpand_hit (b : SchemaBuilder) (fl : Nat) (pr : List Str) (st : BuildState)
    (n : Str) (d : GoStruct) (o : GOutput) (h1 : assoc n b.env = some d)
    (h2 : assoc n st.typeRegistry = some o) :
    structExpand b fl pr st n = .ok (o, st) := by
  unfold structExpand
  split
  · rename_i henv
    rw [h1] at henv
    cases henv
  · rename_i d' henv
    split
    · rename_i o' hreg
      rw [h2] at hreg
      injection hreg with hreg
      rw [hreg]
    · rename_i hreg
      rw [h2] at hreg
      cases hreg

theorem structExpand_placeholder (b : SchemaBuilder) (fl : Nat) (pr : List Str)
    (st : BuildState) (n : Str) (d : GoStruct) (h1 : assoc n b.env = some d)
    (h2 : assoc n st.typeRegistry = none) (h3 : n ∈ pr) :
    structExpand b fl pr st n =
      .ok (.gThunkObject st.nextId n,
        { st with typeRegistry := upsert n (.gThunkObject st.nextId n) st.typeRegistry,
                  nextId := st.nextId + 1 }) := by
  unfold structExpand
  split
  · rename_i henv
    rw [h1] at henv
    cases henv
  · rename_i d' henv
    split
    · rename_i o' hreg
      simp [h2] at hreg
    · rw [dif_pos h3]

theorem structExpand_expand (b : SchemaBuilder) (fl : Nat) (pr : List Str)
    (st : BuildState) (n : Str) (d : GoStruct) (h1 : assoc n b.env = some d)
    (h2 : assoc n st.typeRegistry = none) (h3 : ¬ n ∈ pr) :
    structExpand b fl pr st n =
      match buildFields b fl (n :: pr) st d.sfields [] with
      | .error er => .error er
      | .ok (flds, st1) =>
        match buildMethods b fl (n :: pr) st1 d.methods flds with
        | .error er => .error er
        | .ok (flds2, st2) =>
          let st3 := { st2 with fieldsCache := upsert n flds2 st2.fieldsCache }
          match assoc n st3.typeRegistry with
          | some existing => .ok (existing, st3)
          | none =>
            let typeName : Str :=
              match d.gqlTypeName with
              | some nm => if nm = [] then n else nm
              | none => n
            let obj := GOutput.gObject st3.nextId typeName
            .ok (obj,
              { st3 with typeRegistry := upsert n obj st3.typeRegistry,
                         nextId := st3.nextId + 1 }) := by
  unfold structExpand
  split
  · rename_i henv
    rw [h1] at henv
    cases henv
  · rename_i d' henv
    rw [h1] at henv
    injection henv with henv
    subst henv
    split
    · rename_i o' hreg
      simp [h2] at hreg
    · rw [dif_neg h3]

/-- C2: general cycle-protection behaviour plus the self-referential
instance.  A struct type with a completed or placeholder registry node is
reused as-is for every further occurrence; a re-entrant occurrence (the type
is in the processing set) without a registry node creates a fresh placeholder
node and registers it immediately; and for the declaration `A { Name string;
Self *A }` the (total, hence terminating) mapper succeeds, the one
placeholder is the registered node for `A`, the cached `self` field carries
that same node, and mapping `A` again from the finished state returns the
same node unchanged. -/
theorem typeAsGraphqlField_self_reference (A : Str) (fuel : Nat) :
    (∀ (b : SchemaBuilder) (fl : Nat) (pr : List Str) (st : BuildState) (n : Str)
        (d : GoStruct) (o : GOutput), assoc n b.env = some d →
        assoc n st.typeRegistry = some o →
        structExpand b fl pr st n = .ok (o, st)) ∧
    (∀ (b : SchemaBuilder) (fl : Nat) (pr : List Str) (st : BuildState) (n : Str)
        (d : GoStruct), assoc n b.env = some d → assoc n st.typeRegistry = none →
        n ∈ pr →
        structExpand b fl pr st n =
          .ok (.gThunkObject st.nextId n,
            { st with typeRegistry := upsert n (.gThunkObject st.nextId n) st.typeRegistry,
                      nextId := st.nextId + 1 })) ∧
    TypeAsGraphqlField (NewSchemaBuilder (selfRefEnv A)) fuel [] initialBuildState (.ref A) =
      .ok (.gThunkObject 0 A, selfRefFinalState A) ∧
    assoc A (selfRefFinalState A).typeRegistry = some (.gThunkObject 0 A) ∧
    (∃ flds, assoc A (selfRefFinalState A).fieldsCache = some flds ∧
      assoc "self".toList flds = some (.gThunkObject 0 A)) ∧
    TypeAsGraphqlField (NewSchemaBuilder (selfRefEnv A)) fuel [] (selfRefFinalState A)
        (.ref A) =
      .ok (.gThunkObject 0 A, selfRefFinalState A) := by
  have hcust : (NewSchemaBuilder (selfRefEnv A)).customTypes =
      [(GoTy.time, "DateTime".toList)] := rfl
  have henv : assoc A (NewSchemaBuilder (selfRefEnv A)).env =
      some ⟨[⟨"Name".toList, "name".toList, .str⟩,
             ⟨"Self".toList, "self".toList, .ptr (.ref A)⟩], [], none⟩ := by
    simp [NewSchemaBuilder, RegisterCustomType, selfRefEnv, assoc]
  refine ⟨fun b fl pr st n d o h1 h2 => structExpand_hit b fl pr st n d o h1 h2,
    fun b fl pr st n d h1 h2 h3 => structExpand_placeholder b fl pr st n d h1 h2 h3,
    ?_, ?_, ?_, ?_⟩
  · have hself : structExpand (NewSchemaBuilder (selfRefEnv A)) fuel [A] initialBuildState A =
        .ok (.gThunkObject 0 A, ⟨[(A, .gThunkObject 0 A)], [], [], [], 1⟩) := by
      have h := structExpand_placeholder (NewSchemaBuilder (selfRefEnv A)) fuel [A]
        initialBuildState A _ henv rfl (by simp)
      simpa [initialBuildState, upsert] using h
    have hstr : TypeAsGraphqlField (NewSchemaBuilder (selfRefEnv A)) fuel [A]
        initialBuildState GoTy.str = .ok (.gScalar "String".toList, initialBuildState) := by
      simp [TypeAsGraphqlField, hcust, assoc]
    have hptr : TypeAsGraphqlField (NewSchemaBuilder (selfRefEnv A)) fuel [A]
        initialBuildState (.ptr (.ref A)) =
        .ok (.gThunkObject 0 A, ⟨[(A, .gThunkObject 0 A)], [], [], [], 1⟩) := by
      simp [TypeAsGraphqlField, hcust, assoc]
      exact hself
    have hfields : buildFields (NewSchemaBuilder (selfRefEnv A)) fuel [A] initialBuildState
        [⟨"Name".toList, "name".toList, .str⟩, ⟨"Self".toList, "self".toList, .ptr (.ref A)⟩]
        [] =
        .ok ([("name".toList, .gScalar "String".toList), ("self".toList, .gThunkObject 0 A)],
          ⟨[(A, .gThunkObject 0 A)], [], [], [], 1⟩) := by
      simp [buildFields, GetGqlTag, ParseGqlTag, splitComma, upsert, hstr, hptr]
    have htop : TypeAsGraphqlField (NewSchemaBuilder (selfRefEnv A)) fuel [] initialBuildState
        (.ref A) =
        structExpand (NewSchemaBuilder (selfRefEnv A)) fuel [] initialBuildState A := by
      simp [TypeAsGraphqlField, hcust, assoc]
    rw [htop, structExpand_expand (NewSchemaBuilder (selfRefEnv A)) fuel [] initialBuildState
      A _ henv rfl (by simp)]
    rw [show (⟨[⟨"Name".toList, "name".toList, .str⟩,
        ⟨"Self".toList, "self".toList, .ptr (.ref A)⟩], [], none⟩ : GoStruct).sfields =
        [⟨"Name".toList, "name".toList, .str⟩, ⟨"Self".toList, "self".toList, .ptr (.ref A)⟩]
        from rfl, hfields]
    simp [buildMethods, upsert, assoc, selfRefFinalState]
  · simp [selfRefFinalState, assoc]
  · exact ⟨[("name".toList, .gScalar "String".toList), ("self".toList, .gThunkObject 0 A)],
      by simp [selfRefFinalState, assoc], by simp [assoc]⟩
  · have htop2 : TypeAsGraphqlField (NewSchemaBuilder (selfRefEnv A)) fuel []
        (selfRefFinalState A) (.ref A) =
        structExpand (NewSchemaBuilder (selfRefEnv A)) fuel [] (selfRefFinalState A) A := by
      simp [TypeAsGraphqlField, hcust, assoc]
    rw [htop2]
    exact structExpand_hit _ _ _ _ _ _ _ henv (by simp [selfRefFinalState, assoc])

/-- C2 witness: the self-referential build at the concrete name `A` and fuel
zero. -/
theorem typeAsGraphqlField_self_reference_witness :
    TypeAsGraphqlField (NewSchemaBuilder (selfRefEnv "A".toList)) 0 [] initialBuildState
        (.ref "A".toList) =
      .ok (.gThunkObject 0 "A".toList, selfRefFinalState "A".toList) ∧
    (∃ flds, assoc "A".toList (selfRefFinalState "A".toList).fieldsCache = some flds ∧
      assoc "self".toList flds = some (.gThunkObject 0 "A".toList)) :=
  ⟨(typeAsGraphqlField_self_reference "A".toList 0).2.2.1,
   (typeAsGraphqlField_self_reference "A".toList 0).2.2.2.2.1⟩

theorem tc_preserves_registry (fuel : Nat) :
    ∀ (b : SchemaBuilder), b.allowSharedTypes = false →
    (∀ (st : BuildState) (t : GoTy) (r : GInput) (st' : BuildState),
      TypeAsGraphqlArgumentConfig b fuel st t = .ok (r, st') →
      st'.typeHashRegistry = st.typeHashRegistry) ∧
    (∀ (fs : List GoField) (st : BuildState) (acc r : List (Str × GInput))
      (st' : BuildState),
      argFields b fuel st fs acc = .ok (r, st') →
      st'.typeHashRegistry = st.typeHashRegistry) := by
  induction fuel with
  | zero =>
    intro b hb
    constructor
    · intro st t r st' h
      simp [TypeAsGraphqlArgumentConfig] at h
    · intro fs
      induction fs with
      | nil =>
        intro st acc r st' h
        simp only [argFields] at h
        cases h
        rfl
      | cons f fs ihf =>
        intro st acc r st' h
        simp only [argFields] at h
        split at h
        · cases h
        · split at h
          · exact ihf st acc r st' h
          · split at h
            · cases h
            · rename_i cfg st1 hTC
              simp [TypeAsGraphqlArgumentConfig] at hTC
  | succ fuel ih =>
    intro b hb
    have htc : ∀ (st : BuildState) (t : GoTy) (r : GInput) (st' : BuildState),
        TypeAsGraphqlArgumentConfig b (fuel + 1) st t = .ok (r, st') →
        st'.typeHashRegistry = st.typeHashRegistry := by
      intro st t r st' h
      cases t with
      | int =>
        simp only [TypeAsGraphqlArgumentConfig] at h
        split at h <;> (first | (cases h; rfl) | cases h)
      | str =>
        simp only [TypeAsGraphqlArgumentConfig] at h
        split at h <;> (first | (cases h; rfl) | cases h)
      | bool =>
        simp only [TypeAsGraphqlArgumentConfig] at h
        split at h <;> (first | (cases h; rfl) | cases h)
      | float =>
        simp only [TypeAsGraphqlArgumentConfig] at h
        split at h <;> (first | (cases h; rfl) | cases h)
      | time =>
        simp only [TypeAsGraphqlArgumentConfig] at h
        split at h <;> (first | (cases h; rfl) | cases h)
      | ctx =>
        simp only [TypeAsGraphqlArgumentConfig] at h
        split at h <;> (first | (cases h; rfl) | cases h)
      | info =>
        simp only [TypeAsGraphqlArgumentConfig] at h
        split at h <;> (first | (cases h; rfl) | cases h)
      | err =>
        simp only [TypeAsGraphqlArgumentConfig] at h
        split at h <;> (first | (cases h; rfl) | cases h)
      | iface =>
        simp only [TypeAsGraphqlArgumentConfig] at h
        split at h <;> (first | (cases h; rfl) | cases h)
      | map k v =>
        simp only [TypeAsGraphqlArgumentConfig] at h
        split at h <;> (first | (cases h; rfl) | cases h)
      | slice e =>
        simp only [TypeAsGraphqlArgumentConfig] at h
        split at h
        · cases h
          rfl
        · split at h
          · cases h
          · rename_i ec st1 hTC
            cases h
            exact (ih b hb).1 st e _ _ hTC
      | ptr e =>
        simp only [TypeAsGraphqlArgumentConfig] at h
        split at h
        · cases h
          rfl
        · exact (ih b hb).1 st e r st' h
      | ref n =>
        simp only [TypeAsGraphqlArgumentConfig] at h
        split at h
        · cases h
          rfl
        · split at h
          · cases h
          · rename_i d henv
            rw [hb] at h
            simp only [Bool.false_eq_true, if_false, and_false] at h
            split at h
            · cases h
            · rename_i args st2 hAF
              cases h
              simpa using (ih b hb).2 d.sfields st _ _ _ hAF
    refine ⟨htc, ?_⟩
    intro fs
    induction fs with
    | nil =>
      intro st acc r st' h
      simp only [argFields] at h
      cases h
      rfl
    | cons f fs ihf =>
      intro st acc r st' h
      simp only [argFields] at h
      split at h
      · cases h
      · split at h
        · exact ihf st acc r st' h
        · split at h
          · cases h
          · rename_i cfg st1 hTC
            have e1 := htc st f.ty _ _ hTC
            have e2 := ihf st1 _ r st' h
            rw [e2, e1]

/-- C10: structural deduplication applies only when the shared-types flag is
enabled: a newly constructed builder enables it by default, `AllowSharedTypes`
overwrites it, and with the flag off every struct input type that maps
successfully maps to an input object named by its own native name (or its
declared override), with the structural hash registry never consulted nor
changed. -/
theorem allowSharedTypes_gates_dedup (env : Env) :
    (NewSchemaBuilder env).allowSharedTypes = true ∧
    (∀ (b : SchemaBuilder) (allow : Bool),
      (AllowSharedTypes b allow).allowSharedTypes = allow) ∧
    (∀ (b : SchemaBuilder) (fuel : Nat) (st : BuildState) (n : Str) (d : GoStruct)
        (r : GInput) (st' : BuildState),
      b.allowSharedTypes = false →
      assoc (GoTy.ref n) b.customTypes = none →
      assoc n b.env = some d →
      TypeAsGraphqlArgumentConfig b fuel st (.ref n) = .ok (r, st') →
      r = .iInputObject (match d.gqlTypeName with
            | some nm => if nm = [] then n else nm
            | none => n) ∧
      st'.typeHashRegistry = st.typeHashRegistry) := by
  refine ⟨rfl, fun b allow => rfl, ?_⟩
  intro b fuel st n d r st' hb hcust henv h
  have hreg := (tc_preserves_registry fuel b hb).1 st (.ref n) r st' h
  refine ⟨?_, hreg⟩
  cases fuel with
  | zero => simp [TypeAsGraphqlArgumentConfig] at h
  | succ fuel =>
    simp only [TypeAsGraphqlArgumentConfig] at h
    split at h
    · rename_i nm hc
      rw [hcust] at hc
      cases hc
    · split at h
      · rename_i henv2
        rw [henv] at henv2
        cases henv2
      · rename_i d' henv2
        rw [henv] at henv2
        injection henv2 with henv2
        subst henv2
        rw [hb] at h
        simp only [Bool.false_eq_true, if_false, and_false] at h
        split at h
        · cases h
        · rename_i args st2 hAF
          cases h
          rfl

/-- C10 witness: with deduplication turned off, the duplicate-layout input
struct maps under its own name and the hash registry stays empty. -/
theorem allowSharedTypes_gates_dedup_witness :
    (AllowSharedTypes (NewSchemaBuilder envDup) false).allowSharedTypes = false ∧
    TypeAsGraphqlArgumentConfig (AllowSharedTypes (NewSchemaBuilder envDup) false) 2
        initialBuildState (.ref "AInput".toList) =
      .ok (.iInputObject "AInput".toList, ⟨[], [], [], ["AInput".toList], 0⟩) ∧
    (GInput.iInputObject "AInput".toList =
      .iInputObject (match (⟨dupFields, [], none⟩ : GoStruct).gqlTypeName with
        | some nm => if nm = [] then "AInput".toList else nm
        | none => "AInput".toList)) ∧
    (BuildState.mk [] [] [] ["AInput".toList] 0).typeHashRegistry =
      initialBuildState.typeHashRegistry := by
  have hrun : TypeAsGraphqlArgumentConfig (AllowSharedTypes (NewSchemaBuilder envDup) false) 2
      initialBuildState (.ref "AInput".toList) =
      .ok (.iInputObject "AInput".toList, ⟨[], [], [], ["AInput".toList], 0⟩) := by
    simp [TypeAsGraphqlArgumentConfig, argFields, AllowSharedTypes, NewSchemaBuilder,
      RegisterCustomType, createDateTimeScalar, envDup, dupFields, GetGqlTag, ParseGqlTag,
      splitComma, assoc, upsert, initialBuildState]
  refine ⟨rfl, hrun, ?_, ?_⟩
  · exact ((allowSharedTypes_gates_dedup envDup).2.2 _ 2 initialBuildState "AInput".toList
      ⟨dupFields, [], none⟩ _ _ rfl (by decide) (by decide) hrun).1
  · exact ((allowSharedTypes_gates_dedup envDup).2.2 _ 2 initialBuildState "AInput".toList
      ⟨dupFields, [], none⟩ _ _ rfl (by decide) (by decide) hrun).2

/-- C1: refuted.  `structHash` seeds its hash input with `definition.String()`
— the identity of the declaration — before appending the `(exposed field name,
field type)` pairs, so two distinct declarations (`AInput`, `BInput`) with the
very same tagged-field list hash differently, and in one dedup-enabled build
each keeps its own schema name instead of collapsing to the first-seen name. -/
theorem structHash_identity_seeded_no_collapse :
    assoc "AInput".toList envDup = some ⟨dupFields, [], none⟩ ∧
    assoc "BInput".toList envDup = some ⟨dupFields, [], none⟩ ∧
    structHash "AInput".toList ⟨dupFields, [], none⟩ ≠
      structHash "BInput".toList ⟨dupFields, [], none⟩ ∧
    TypeAsGraphqlArgumentConfig (NewSchemaBuilder envDup) 2 initialBuildState
        (.ref "AInput".toList) =
      .ok (.iInputObject "AInput".toList,
        ⟨[], [], [(structHash "AInput".toList ⟨dupFields, [], none⟩, "AInput".toList)],
         ["AInput".toList], 0⟩) ∧
    TypeAsGraphqlArgumentConfig (NewSchemaBuilder envDup) 2
        ⟨[], [], [(structHash "AInput".toList ⟨dupFields, [], none⟩, "AInput".toList)],
         ["AInput".toList], 0⟩ (.ref "BInput".toList) =
      .ok (.iInputObject "BInput".toList,
        ⟨[], [],
         [(structHash "AInput".toList ⟨dupFields, [], none⟩, "AInput".toList),
          (structHash "BInput".toList ⟨dupFields, [], none⟩, "BInput".toList)],
         ["BInput".toList, "AInput".toList], 0⟩) ∧
    GInput.iInputObject "BInput".toList ≠ GInput.iInputObject "AInput".toList := by
  refine ⟨by decide, by decide, by decide, ?_, ?_, by decide⟩
  · simp [TypeAsGraphqlArgumentConfig, argFields, NewSchemaBuilder, RegisterCustomType,
      createDateTimeScalar, envDup, dupFields, structHash, tyGoString, GetGqlTag,
      ParseGqlTag, splitComma, assoc, upsert, initialBuildState]
  · simp [TypeAsGraphqlArgumentConfig, argFields, NewSchemaBuilder, RegisterCustomType,
      createDateTimeScalar, envDup, dupFields, structHash, tyGoString, GetGqlTag,
      ParseGqlTag, splitComma, assoc, upsert]
